import Mathlib

/-!
# Shallow embedding of the e-commerce backend's cart/order/inventory core

The definitions below embed, in Lean, the request handlers of
`src/controllers/CartController.js` and `src/controllers/OrderController.js`
together with the Mongoose schemas they persist through
(`src/models/Product.js`, `models/Order.js`).  Persistent state (the Mongo
collections) is a `DB` record threaded explicitly; each handler takes the
current `DB` plus its request data and returns the new `DB` together with the
HTTP response (`Except Err _`): `catchAsyncErrors` turns every thrown error
into an error response, so a thrown Mongoose validation error mid-handler
surfaces as an error response while keeping all state changes already saved.

Modelling conventions, all reflecting the source:
* Mongo document ids (`ObjectId`s) are `Nat`; ids are unique per collection,
  so "save this document" is "replace the document with this id".
* Mongoose runs schema validators on `save()`; in particular
  `productSchema.stock` has `min: 0` and `price` has `min: 0`
  (src/models/Product.js), so a save that would persist a negative stock
  throws a `ValidationError` and persists nothing.
* Catalog-only product fields (name, description, category, age, images, ...)
  are never read or written by the cart/order handlers and are constant
  across every operation modelled here, so their validation outcome on
  re-save is invariant; they are omitted from the `Product` record.
* Fields that the order schema marks `required` without further constraints
  are represented by their types (a `String` field is `required` in Mongoose
  iff non-empty, which stays a dynamic check); `paymentMethod`'s closed enum
  and the shipping-address record are represented by closed Lean types.
-/

namespace ECommerce

/-- The error responses the handlers produce: `api msg code` is
`next(new ErrorHandler(msg, code))`; `schemaValidation` is a Mongoose
`ValidationError` thrown by `save()`/`create()` (rendered with status 500 by
`errorMiddleware`, which only rewrites duplicate-key/JWT/cast errors);
`typeError` is a thrown JavaScript `TypeError` (e.g. reading `.stock` of
`null`), also rendered as a 500. -/
inductive Err
  | api (message : String) (statusCode : Nat)
  | schemaValidation (message : String)
  | typeError (message : String)
  deriving Repr, DecidableEq

/-- The authenticated requester's role (`req.user.role`). -/
inductive Role
  | user
  | admin
  deriving Repr, DecidableEq

/-- A product document, restricted to the fields the cart/order core reads
and writes: `price` and `stock` (src/models/Product.js). -/
structure Product where
  pid : Nat
  price : Int
  stock : Int
  deriving Repr, DecidableEq

/-- A cart line item (subdocument): Mongo subdocument id, product reference,
quantity, size, color, and the unit price captured at add-time
(CartController.js `cart.items.push`). -/
structure CartItem where
  itemId : Nat
  product : Nat
  quantity : Int
  size : String
  color : String
  price : Int
  deriving Repr, DecidableEq

/-- A cart document: owning user and the item list. -/
structure Cart where
  user : Nat
  items : List CartItem
  deriving Repr, DecidableEq

/-- The order status enum of the order schema. -/
inductive OrderStatus
  | Processing
  | Confirmed
  | Shipped
  | InTransit
  | Delivered
  | Cancelled
  deriving Repr, DecidableEq

/-- The payment-method enum of the order schema: COD, Card, UPI, NetBanking. -/
inductive PaymentMethod
  | COD
  | Card
  | UPI
  | NetBanking
  deriving Repr, DecidableEq

/-- Shipping address subdocument of the order schema. -/
structure ShippingAddress where
  street : String
  city : String
  addrState : String
  zipCode : String
  country : String
  deriving Repr, DecidableEq

/-- Payment receipt stored by `updateOrderToPaid`. -/
structure PaymentResult where
  id : String
  payStatus : String
  updateTime : String
  emailAddress : String
  deriving Repr, DecidableEq

/-- An order line item: product reference, denormalized name, quantity, size,
price, image (order schema `orderItems`). -/
structure OrderItem where
  product : Nat
  name : String
  quantity : Int
  size : String
  price : Int
  image : String
  deriving Repr, DecidableEq

/-- An order document (order schema). -/
structure Order where
  oid : Nat
  user : Nat
  orderItems : List OrderItem
  shippingAddress : ShippingAddress
  paymentMethod : PaymentMethod
  paymentResult : Option PaymentResult
  itemsPrice : Int
  taxPrice : Int
  shippingPrice : Int
  totalPrice : Int
  isPaid : Bool
  paidAt : Option Nat
  isDelivered : Bool
  deliveredAt : Option Nat
  status : OrderStatus
  trackingNumber : Option String
  deriving Repr, DecidableEq

/-- The persistent state: the three Mongo collections touched by the core,
plus a counter supplying fresh document/subdocument ids. -/
structure DB where
  products : List Product
  carts : List Cart
  orders : List Order
  nextId : Nat
  deriving Repr, DecidableEq

/-- First document with the given product id. -/
def findProd : List Product → Nat → Option Product
  | [], _ => none
  | p :: rest, pid => if p.pid = pid then some p else findProd rest pid

/-- `Product.findById` — the (unique) document with the given id. -/
def findProductById (db : DB) (pid : Nat) : Option Product :=
  findProd db.products pid

/-- First cart of the given user. -/
def findCart : List Cart → Nat → Option Cart
  | [], _ => none
  | c :: rest, uid => if c.user = uid then some c else findCart rest uid

/-- `Cart.findOne({user})` — the (unique, 1:1) cart of the given user. -/
def findCartByUser (db : DB) (uid : Nat) : Option Cart :=
  findCart db.carts uid

/-- First document with the given order id. -/
def findOrd : List Order → Nat → Option Order
  | [], _ => none
  | o :: rest, oid => if o.oid = oid then some o else findOrd rest oid

/-- `Order.findById`. -/
def findOrderById (db : DB) (oid : Nat) : Option Order :=
  findOrd db.orders oid

/-- Replace the product document with `p.pid` by `p` (ids unique per
collection, so replacing every match is replacing the one document). -/
def replaceProductById : List Product → Product → List Product
  | [], _ => []
  | q :: rest, p => (if q.pid = p.pid then p else q) :: replaceProductById rest p

/-- `product.save()`: Mongoose re-validates the document; `stock` and `price`
both carry `min: 0` (src/models/Product.js), so a save of a negative value
throws a `ValidationError` and persists nothing. -/
def productSave (db : DB) (p : Product) : Except Err DB :=
  if p.stock < 0 then
    .error (.schemaValidation "Product validation failed: stock is less than minimum allowed value (0)")
  else if p.price < 0 then
    .error (.schemaValidation "Product validation failed: price is less than minimum allowed value (0)")
  else
    .ok { db with products := replaceProductById db.products p }

/-- Modelled from the spec: the cart model file (`models/Cart.js`) is not
among the repository sources (only its importers are), so its schema
validation is taken from the spec, §3: each CartItem's quantity is a
"positive integer", hence saving a cart validates `quantity >= 1` for every
item. -/
def cartItemValid (it : CartItem) : Bool :=
  decide (1 ≤ it.quantity)

/-- Is there a cart owned by the given user? -/
def hasCartFor : List Cart → Nat → Bool
  | [], _ => false
  | c :: rest, uid => if c.user = uid then true else hasCartFor rest uid

/-- Replace the (unique) cart of `c.user` by `c`. -/
def replaceCartByUser : List Cart → Cart → List Cart
  | [], _ => []
  | c0 :: rest, c => (if c0.user = c.user then c else c0) :: replaceCartByUser rest c

/-- Replace-or-insert the cart of `c.user` (one cart per user): the update
when the cart document already existed, the insert when `addToCart` built a
`new Cart(...)`. -/
def putCart (carts : List Cart) (c : Cart) : List Cart :=
  if hasCartFor carts c.user then replaceCartByUser carts c else carts ++ [c]

/-- `cart.save()`: validates every item against the (spec-modelled) cart
schema, then persists; on validation failure nothing is persisted. -/
def cartSave (db : DB) (c : Cart) : Except Err DB :=
  if c.items.all cartItemValid then
    .ok { db with carts := putCart db.carts c }
  else
    .error (.schemaValidation "Cart validation failed: quantity is less than minimum allowed value (1)")

/-- Validation of one order line item (order schema): `name` and `size` are
`required` (non-empty for strings), `quantity` has `min: 1`; `product` and
`price` are `required` but present by typing; `image` is optional. -/
def orderItemValid (it : OrderItem) : Bool :=
  it.name != "" && it.size != "" && decide (1 ≤ it.quantity)

/-- Validation of the shipping address (order schema): all five fields
`required`. -/
def shippingAddressValid (a : ShippingAddress) : Bool :=
  a.street != "" && a.city != "" && a.addrState != "" && a.zipCode != "" && a.country != ""

/-- Full-document validation of an order against the order schema. -/
def orderValid (o : Order) : Bool :=
  o.orderItems.all orderItemValid && shippingAddressValid o.shippingAddress

/-- Replace the order document with `o.oid` by `o`. -/
def replaceOrderById : List Order → Order → List Order
  | [], _ => []
  | q :: rest, o => (if q.oid = o.oid then o else q) :: replaceOrderById rest o

/-- `order.save()` on an existing order: re-validates, then persists. -/
def orderSave (db : DB) (o : Order) : Except Err DB :=
  if orderValid o then
    .ok { db with orders := replaceOrderById db.orders o }
  else
    .error (.schemaValidation "Order validation failed")

/-- The order document `createOrder` submits to `Order.create`: the request
fields plus the schema defaults (`status: "Processing"`, `isPaid: false`,
`isDelivered: false`). -/
def newOrder (db : DB) (userId : Nat) (orderItems : List OrderItem)
    (shippingAddress : ShippingAddress) (paymentMethod : PaymentMethod)
    (itemsPrice taxPrice shippingPrice totalPrice : Int) : Order :=
  { oid := db.nextId
    user := userId
    orderItems := orderItems
    shippingAddress := shippingAddress
    paymentMethod := paymentMethod
    paymentResult := none
    itemsPrice := itemsPrice
    taxPrice := taxPrice
    shippingPrice := shippingPrice
    totalPrice := totalPrice
    isPaid := false
    paidAt := none
    isDelivered := false
    deliveredAt := none
    status := .Processing
    trackingNumber := none }

/-- `Order.create({...})` as called by `createOrder`: builds the document,
validates it against the schema, and inserts it. -/
def orderCreate (db : DB) (userId : Nat) (orderItems : List OrderItem)
    (shippingAddress : ShippingAddress) (paymentMethod : PaymentMethod)
    (itemsPrice taxPrice shippingPrice totalPrice : Int) : Except Err (DB × Order) :=
  let o := newOrder db userId orderItems shippingAddress paymentMethod
    itemsPrice taxPrice shippingPrice totalPrice
  if orderValid o then
    .ok ({ db with orders := db.orders ++ [o], nextId := db.nextId + 1 }, o)
  else
    .error (.schemaValidation "Order validation failed")

/-- The stock-update loop of `createOrder` (OrderController.js lines 33-40):
for each item, look the product up, silently skip it when absent, otherwise
subtract the quantity and `save()`.  A throwing save aborts the loop,
keeping every save already made. -/
def stockDecrementLoop : DB → List OrderItem → DB × Option Err
  | db, [] => (db, none)
  | db, item :: rest =>
    match findProductById db item.product with
    | none => stockDecrementLoop db rest
    | some product =>
      match productSave db { product with stock := product.stock - item.quantity } with
      | .error e => (db, some e)
      | .ok db1 => stockDecrementLoop db1 rest

/-- `createOrder` (OrderController.js): rejects an empty item list, persists
the order via `Order.create`, then runs the stock-update loop; the response
is the created order, or the first thrown error. -/
def createOrder (db : DB) (userId : Nat) (orderItems : List OrderItem)
    (shippingAddress : ShippingAddress) (paymentMethod : PaymentMethod)
    (itemsPrice taxPrice shippingPrice totalPrice : Int) : DB × Except Err Order :=
  if orderItems.isEmpty then
    (db, .error (.api "No order items" 400))
  else
    match orderCreate db userId orderItems shippingAddress paymentMethod
        itemsPrice taxPrice shippingPrice totalPrice with
    | .error e => (db, .error e)
    | .ok (db1, order) =>
      match stockDecrementLoop db1 orderItems with
      | (db2, none) => (db2, .ok order)
      | (db2, some e) => (db2, .error e)

/-- The stock-restore loop of `cancelOrder` (OrderController.js lines
191-197): for each item of the order, look the product up, skip it when
absent, otherwise add the quantity back and `save()`. -/
def stockRestoreLoop : DB → List OrderItem → DB × Option Err
  | db, [] => (db, none)
  | db, item :: rest =>
    match findProductById db item.product with
    | none => stockRestoreLoop db rest
    | some product =>
      match productSave db { product with stock := product.stock + item.quantity } with
      | .error e => (db, some e)
      | .ok db1 => stockRestoreLoop db1 rest

/-- `cancelOrder` (OrderController.js lines 165-204): 404 when absent; 401
unless requester is the owner or an admin; 400 when the status is `Shipped`
or `Delivered`; otherwise sets the status to `Cancelled`, saves the order,
then restores stock item by item. -/
def cancelOrder (db : DB) (requesterId : Nat) (requesterRole : Role) (oid : Nat) :
    DB × Except Err Order :=
  match findOrderById db oid with
  | none => (db, .error (.api "Order not found" 404))
  | some order =>
    if order.user ≠ requesterId ∧ requesterRole ≠ Role.admin then
      (db, .error (.api "Not authorized to cancel this order" 401))
    else if order.status = OrderStatus.Shipped ∨ order.status = OrderStatus.Delivered then
      (db, .error (.api "Cannot cancel order that has been shipped or delivered" 400))
    else
      let order1 := { order with status := OrderStatus.Cancelled }
      match orderSave db order1 with
      | .error e => (db, .error e)
      | .ok db1 =>
        match stockRestoreLoop db1 order1.orderItems with
        | (db2, none) => (db2, .ok order1)
        | (db2, some e) => (db2, .error e)

/-- `getOrderById` (OrderController.js lines 63-81): 404 when absent; 401
unless requester is the owner or an admin; otherwise returns the order. -/
def getOrderById (db : DB) (requesterId : Nat) (requesterRole : Role) (oid : Nat) :
    DB × Except Err Order :=
  match findOrderById db oid with
  | none => (db, .error (.api "Order not found" 404))
  | some order =>
    if order.user ≠ requesterId ∧ requesterRole ≠ Role.admin then
      (db, .error (.api "Not authorized to view this order" 401))
    else
      (db, .ok order)

/-- `updateOrderToPaid` (OrderController.js lines 84-107): 404 when absent;
otherwise — with no ownership check — sets `isPaid`, `paidAt`,
`paymentResult` and saves.  The requester identity supplied by the `protect`
middleware (route `PUT /:id/pay`) is never consulted. -/
def updateOrderToPaid (db : DB) (requesterId : Nat) (requesterRole : Role) (oid : Nat)
    (payment : PaymentResult) (now : Nat) : DB × Except Err Order :=
  match findOrderById db oid with
  | none => (db, .error (.api "Order not found" 404))
  | some order =>
    let order1 := { order with
      isPaid := true
      paidAt := some now
      paymentResult := some payment }
    match orderSave db order1 with
    | .error e => (db, .error e)
    | .ok db1 => (db1, .ok order1)

/-- `cart.items.findIndex`-then-update of `addToCart` (CartController.js
lines 55-73), fused: update the first item whose (product, size, color)
matches, returning the updated list and the summed quantity for the stock
check; `none` when no item matches (`findIndex` returned -1). -/
def mergeCartItem : List CartItem → Nat → Int → String → String →
    Option (List CartItem × Int)
  | [], _, _, _, _ => none
  | it :: rest, productId, quantity, size, color =>
    if it.product = productId ∧ it.size = size ∧ it.color = color then
      some (({ it with quantity := it.quantity + quantity }) :: rest, it.quantity + quantity)
    else
      match mergeCartItem rest productId quantity size color with
      | none => none
      | some (rest1, newQuantity) => some (it :: rest1, newQuantity)

/-- `addToCart` (CartController.js lines 31-96): 404 when the product is
absent; 400 when `product.stock < quantity`; find-or-new the user's cart;
merge into an existing (product, size, color) item after re-checking stock
against the summed quantity, or push a new item capturing `product.price`;
then `cart.save()`. -/
def addToCart (db : DB) (userId : Nat) (productId : Nat) (quantity : Int)
    (size color : String) : DB × Except Err Cart :=
  match findProductById db productId with
  | none => (db, .error (.api "Product not found" 404))
  | some product =>
    if product.stock < quantity then
      (db, .error (.api "Insufficient stock" 400))
    else
      let cart := (findCartByUser db userId).getD { user := userId, items := [] }
      match mergeCartItem cart.items productId quantity size color with
      | some (items1, newQuantity) =>
        if product.stock < newQuantity then
          (db, .error (.api "Insufficient stock for requested quantity" 400))
        else
          let cart1 := { cart with items := items1 }
          match cartSave db cart1 with
          | .error e => (db, .error e)
          | .ok db1 => (db1, .ok cart1)
      | none =>
        let newItem : CartItem := {
          itemId := db.nextId
          product := productId
          quantity := quantity
          size := size
          color := color
          price := product.price }
        let cart1 := { cart with items := cart.items ++ [newItem] }
        match cartSave { db with nextId := db.nextId + 1 } cart1 with
        | .error e => (db, .error e)
        | .ok db1 => (db1, .ok cart1)

/-- `cart.items.id(itemId)`-then-`item.quantity = quantity` of
`updateCartItem`: set the quantity of the (unique) item with the given
subdocument id. -/
def setItemQuantity : List CartItem → Nat → Int → List CartItem
  | [], _, _ => []
  | it :: rest, itemId, q =>
    if it.itemId = itemId then ({ it with quantity := q }) :: rest
    else it :: setItemQuantity rest itemId q

/-- `cart.items.id(itemId)` — the (unique) subdocument with the given id. -/
def findItem : List CartItem → Nat → Option CartItem
  | [], _ => none
  | it :: rest, itemId => if it.itemId = itemId then some it else findItem rest itemId

/-- `updateCartItem` (CartController.js lines 101-137): 400 when
`quantity < 1`; 404 when the cart or the item is absent; then reads
`product.stock` without a null check — a deleted product makes the handler
throw a `TypeError` — and 400 when stock is insufficient; otherwise sets the
quantity and saves. -/
def updateCartItem (db : DB) (userId : Nat) (itemId : Nat) (quantity : Int) :
    DB × Except Err Cart :=
  if quantity < 1 then
    (db, .error (.api "Quantity must be at least 1" 400))
  else
    match findCartByUser db userId with
    | none => (db, .error (.api "Cart not found" 404))
    | some cart =>
      match findItem cart.items itemId with
      | none => (db, .error (.api "Item not found in cart" 404))
      | some item =>
        match findProductById db item.product with
        | none => (db, .error (.typeError "Cannot read properties of null (reading stock)"))
        | some product =>
          if product.stock < quantity then
            (db, .error (.api "Insufficient stock" 400))
          else
            let cart1 := { cart with items := setItemQuantity cart.items itemId quantity }
            match cartSave db cart1 with
            | .error e => (db, .error e)
            | .ok db1 => (db1, .ok cart1)

/-- `removeFromCart` (CartController.js lines 142-173): 404 when the cart is
absent; filters out every item whose subdocument id *or* product id equals
the path parameter; 404 when nothing was removed; otherwise saves. -/
def removeFromCart (db : DB) (userId : Nat) (itemId : Nat) : DB × Except Err Cart :=
  match findCartByUser db userId with
  | none => (db, .error (.api "Cart not found" 404))
  | some cart =>
    let items1 := cart.items.filter fun it => decide (it.itemId ≠ itemId ∧ it.product ≠ itemId)
    if items1.length = cart.items.length then
      (db, .error (.api "Item not found in cart" 404))
    else
      let cart1 := { cart with items := items1 }
      match cartSave db cart1 with
      | .error e => (db, .error e)
      | .ok db1 => (db1, .ok cart1)

/-- `clearCart` (CartController.js lines 178-192): 404 when the user has no
cart document; otherwise empties the item list and saves. -/
def clearCart (db : DB) (userId : Nat) : DB × Except Err Cart :=
  match findCartByUser db userId with
  | none => (db, .error (.api "Cart not found" 404))
  | some cart =>
    let cart1 := { cart with items := ([] : List CartItem) }
    match cartSave db cart1 with
    | .error e => (db, .error e)
    | .ok db1 => (db1, .ok cart1)

/-! ## Derived observations and specification vocabulary -/

/-- The spec's stock invariant (§3): every persisted product has
non-negative stock. -/
def stocksNonneg (db : DB) : Prop :=
  ∀ p ∈ db.products, 0 ≤ p.stock

/-- Every persisted product satisfies both `min: 0` bounds of the product
schema (stock and price); any state built through `productSave` satisfies
this. -/
def dbProductsValid (db : DB) : Prop :=
  ∀ p ∈ db.products, 0 ≤ p.stock ∧ 0 ≤ p.price

/-- The persisted stock of a product, `none` when the product is absent. -/
def productStock (db : DB) (pid : Nat) : Option Int :=
  (findProductById db pid).map fun p => p.stock

/-- Total quantity recorded for a given product across a list of order
items. -/
def itemsQty : List OrderItem → Nat → Int
  | [], _ => 0
  | it :: rest, pid => (if it.product = pid then it.quantity else 0) + itemsQty rest pid

/-- The item list of the user's cart as `addToCart` sees it (`findOne` then
`new Cart({user, items: []})` when absent). -/
def cartItemsOf (db : DB) (uid : Nat) : List CartItem :=
  ((findCartByUser db uid).getD { user := uid, items := [] }).items

/-- The identity key of a cart item: (product, size, color). -/
def cartKey (it : CartItem) : Nat × String × String :=
  (it.product, it.size, it.color)

/-- First cart item with the given (product, size, color) key — the item
`cart.items.findIndex` locates in `addToCart`. -/
def lookupKey : List CartItem → Nat → String → String → Option CartItem
  | [], _, _, _ => none
  | it :: rest, pid, size, color =>
    if it.product = pid ∧ it.size = size ∧ it.color = color then some it
    else lookupKey rest pid size color

/-- The cart-merge invariant of the spec (§3): at most one cart item per
distinct (product, size, color) key. -/
def uniqueKeys (items : List CartItem) : Prop :=
  (items.map cartKey).Nodup

/-- One cart/order operation of the core, with its request data, for
reasoning about arbitrary operation sequences. -/
inductive Op
  | addToCart (userId productId : Nat) (quantity : Int) (size color : String)
  | updateCartItem (userId itemId : Nat) (quantity : Int)
  | removeFromCart (userId itemId : Nat)
  | clearCart (userId : Nat)
  | createOrder (userId : Nat) (orderItems : List OrderItem)
      (shippingAddress : ShippingAddress) (paymentMethod : PaymentMethod)
      (itemsPrice taxPrice shippingPrice totalPrice : Int)
  | cancelOrder (requesterId : Nat) (requesterRole : Role) (oid : Nat)
  deriving Repr

/-- The persistent state after one operation (the response is dropped). -/
def applyOp (db : DB) : Op → DB
  | .addToCart u pid q s c => (addToCart db u pid q s c).1
  | .updateCartItem u itemId q => (updateCartItem db u itemId q).1
  | .removeFromCart u itemId => (removeFromCart db u itemId).1
  | .clearCart u => (clearCart db u).1
  | .createOrder u items addr pm ip tp sp tot => (createOrder db u items addr pm ip tp sp tot).1
  | .cancelOrder rid role oid => (cancelOrder db rid role oid).1

/-- The persistent state after a sequence of operations. -/
def runOps (db : DB) (ops : List Op) : DB :=
  ops.foldl applyOp db

/-! ## Concrete fixtures used by counterexamples and witnesses -/

/-- A shipping address passing every `required` check. -/
def addr1 : ShippingAddress :=
  { street := "MG Road", city := "Pune", addrState := "MH", zipCode := "411001", country := "India" }

/-- Two products: one with ample stock, one with stock 1. -/
def dbTwoProducts : DB :=
  { products := [{ pid := 1, price := 10, stock := 5 }, { pid := 2, price := 10, stock := 1 }]
    carts := [], orders := [], nextId := 100 }

/-- Order item asking for 2 units of product 1. -/
def itemP1q2 : OrderItem :=
  { product := 1, name := "A", quantity := 2, size := "M", price := 10, image := "" }

/-- Order item asking for 3 units of product 2 (more than its stock). -/
def itemP2q3 : OrderItem :=
  { product := 2, name := "B", quantity := 3, size := "M", price := 10, image := "" }

/-- One product with stock 0. -/
def dbStockZero : DB :=
  { products := [{ pid := 1, price := 10, stock := 0 }], carts := [], orders := [], nextId := 100 }

/-- Order item asking for 1 unit of product 1. -/
def itemP1q1 : OrderItem :=
  { product := 1, name := "A", quantity := 1, size := "M", price := 10, image := "" }

/-- An order of user 1 in status `Processing`, passing every schema check. -/
def orderOfUser1 : Order :=
  { oid := 50, user := 1, orderItems := [itemP1q2], shippingAddress := addr1
    paymentMethod := .COD, paymentResult := none
    itemsPrice := 20, taxPrice := 0, shippingPrice := 0, totalPrice := 20
    isPaid := false, paidAt := none, isDelivered := false, deliveredAt := none
    status := .Processing, trackingNumber := none }

/-- State holding `orderOfUser1` and its product. -/
def dbWithOrder : DB :=
  { products := [{ pid := 1, price := 10, stock := 5 }], carts := [], orders := [orderOfUser1]
    nextId := 100 }

/-- Same state but the order is already `Cancelled`. -/
def dbWithCancelledOrder : DB :=
  { dbWithOrder with orders := [{ orderOfUser1 with status := .Cancelled }] }

/-- A cart of user 1 holding 3 units of product 1 in size M / red. -/
def dbCartQty3 : DB :=
  { products := [{ pid := 1, price := 5, stock := 10 }]
    carts := [{ user := 1, items := [{ itemId := 20, product := 1, quantity := 3, size := "M", color := "red", price := 5 }] }]
    orders := [], nextId := 100 }

/-- A cart of user 1 holding 1 unit of product 1 in size M / red. -/
def dbCartQty1 : DB :=
  { products := [{ pid := 1, price := 5, stock := 10 }]
    carts := [{ user := 1, items := [{ itemId := 20, product := 1, quantity := 1, size := "M", color := "red", price := 5 }] }]
    orders := [], nextId := 100 }

/-- A payment receipt. -/
def receipt1 : PaymentResult :=
  { id := "pay_1", payStatus := "COMPLETED", updateTime := "t", emailAddress := "a@b.c" }

deriving instance DecidableEq for Except

instance (db : DB) : Decidable (stocksNonneg db) := by
  unfold stocksNonneg; infer_instance

instance (db : DB) : Decidable (dbProductsValid db) := by
  unfold dbProductsValid; infer_instance

instance (items : List CartItem) : Decidable (uniqueKeys items) := by
  unfold uniqueKeys; infer_instance

/-- Is the response a success? -/
def respOk {α : Type} : Except Err α → Bool
  | .ok _ => true
  | .error _ => false

/-! ## Basic lemmas about lookups, replacement and saves -/

theorem findProd_mem {products : List Product} {pid : Nat} {p : Product}
    (h : findProd products pid = some p) : p ∈ products ∧ p.pid = pid := by
  induction products with
  | nil => simp [findProd] at h
  | cons a l ih =>
    unfold findProd at h
    split at h
    next ha => injection h with h; subst h; exact ⟨List.mem_cons_self _ _, ha⟩
    next ha =>
      rcases ih h with ⟨h1, h2⟩
      exact ⟨List.mem_cons_of_mem _ h1, h2⟩

theorem findProd_replace (products : List Product) (p : Product) (pid : Nat) :
    findProd (replaceProductById products p) pid =
      if pid = p.pid then (findProd products p.pid).map fun _ => p
      else findProd products pid := by
  induction products with
  | nil => simp [replaceProductById, findProd]
  | cons a l ih =>
    by_cases hpp : pid = p.pid
    · subst hpp
      by_cases hap : a.pid = p.pid <;> simp [replaceProductById, findProd, hap, ih]
    · have hpp' : ¬ p.pid = pid := fun h => hpp h.symm
      by_cases hap : a.pid = p.pid
      · have hax : ¬ a.pid = pid := by rw [hap]; exact hpp'
        simp [replaceProductById, findProd, hap, hax, hpp, hpp', ih]
      · by_cases hax : a.pid = pid <;>
          simp [replaceProductById, findProd, hap, hax, hpp, ih]

theorem mem_replaceProductById {q p : Product} {products : List Product}
    (h : q ∈ replaceProductById products p) : q = p ∨ q ∈ products := by
  induction products with
  | nil => simp [replaceProductById] at h
  | cons a l ih =>
    simp only [replaceProductById, List.mem_cons] at h
    rcases h with h | h
    · by_cases hap : a.pid = p.pid <;> simp [hap] at h <;> subst h
      · exact Or.inl rfl
      · exact Or.inr (List.mem_cons_self _ _)
    · rcases ih h with h1 | h1
      · exact Or.inl h1
      · exact Or.inr (List.mem_cons_of_mem _ h1)

theorem productSave_ok {db db1 : DB} {p : Product}
    (h : productSave db p = .ok db1) :
    0 ≤ p.stock ∧ 0 ≤ p.price ∧
      db1 = { db with products := replaceProductById db.products p } := by
  unfold productSave at h
  split at h
  next => simp at h
  next hst =>
    split at h
    next => simp at h
    next hpr =>
      injection h with h
      exact ⟨by omega, by omega, h.symm⟩

theorem productSave_eq_ok (db : DB) (p : Product) (hst : 0 ≤ p.stock) (hpr : 0 ≤ p.price) :
    productSave db p = .ok { db with products := replaceProductById db.products p } := by
  unfold productSave
  rw [if_neg (by omega), if_neg (by omega)]

theorem cartSave_ok {db db1 : DB} {c : Cart} (h : cartSave db c = .ok db1) :
    c.items.all cartItemValid = true ∧ db1 = { db with carts := putCart db.carts c } := by
  unfold cartSave at h
  split at h
  next hv => injection h with h; exact ⟨hv, h.symm⟩
  next => simp at h

theorem cartSave_eq_ok (db : DB) (c : Cart) (hv : c.items.all cartItemValid = true) :
    cartSave db c = .ok { db with carts := putCart db.carts c } := by
  unfold cartSave
  rw [if_pos hv]

theorem orderSave_ok {db db1 : DB} {o : Order} (h : orderSave db o = .ok db1) :
    orderValid o = true ∧ db1 = { db with orders := replaceOrderById db.orders o } := by
  unfold orderSave at h
  split at h
  next hv => injection h with h; exact ⟨hv, h.symm⟩
  next => simp at h

theorem orderSave_eq_ok (db : DB) (o : Order) (hv : orderValid o = true) :
    orderSave db o = .ok { db with orders := replaceOrderById db.orders o } := by
  unfold orderSave
  rw [if_pos hv]

theorem findOrd_mem {orders : List Order} {oid : Nat} {o : Order}
    (h : findOrd orders oid = some o) : o ∈ orders ∧ o.oid = oid := by
  induction orders with
  | nil => simp [findOrd] at h
  | cons a l ih =>
    unfold findOrd at h
    split at h
    next ha => injection h with h; subst h; exact ⟨List.mem_cons_self _ _, ha⟩
    next ha =>
      rcases ih h with ⟨h1, h2⟩
      exact ⟨List.mem_cons_of_mem _ h1, h2⟩

theorem findOrd_replace (orders : List Order) (o : Order) (oid : Nat) :
    findOrd (replaceOrderById orders o) oid =
      if oid = o.oid then (findOrd orders o.oid).map fun _ => o
      else findOrd orders oid := by
  induction orders with
  | nil => simp [replaceOrderById, findOrd]
  | cons a l ih =>
    by_cases hpp : oid = o.oid
    · subst hpp
      by_cases hap : a.oid = o.oid <;> simp [replaceOrderById, findOrd, hap, ih]
    · have hpp' : ¬ o.oid = oid := fun h => hpp h.symm
      by_cases hap : a.oid = o.oid
      · have hax : ¬ a.oid = oid := by rw [hap]; exact hpp'
        simp [replaceOrderById, findOrd, hap, hax, hpp, hpp', ih]
      · by_cases hax : a.oid = oid <;>
          simp [replaceOrderById, findOrd, hap, hax, hpp, ih]

theorem findCart_replace {carts : List Cart} {c : Cart}
    (h : hasCartFor carts c.user = true) :
    findCart (replaceCartByUser carts c) c.user = some c := by
  induction carts with
  | nil => simp [hasCartFor] at h
  | cons a l ih =>
    unfold hasCartFor at h
    by_cases hau : a.user = c.user
    · simp [replaceCartByUser, findCart, hau]
    · rw [if_neg hau] at h
      simp [replaceCartByUser, findCart, hau, ih h]

theorem findCart_append_absent {carts : List Cart} {c : Cart}
    (h : hasCartFor carts c.user = false) :
    findCart (carts ++ [c]) c.user = some c := by
  induction carts with
  | nil => simp [findCart]
  | cons a l ih =>
    unfold hasCartFor at h
    by_cases hau : a.user = c.user
    · rw [if_pos hau] at h; cases h
    · rw [if_neg hau] at h
      simp [findCart, hau, ih h]

theorem findCart_putCart (carts : List Cart) (c : Cart) :
    findCart (putCart carts c) c.user = some c := by
  unfold putCart
  split
  next h => exact findCart_replace h
  next h => exact findCart_append_absent (by simpa using h)

theorem replaceCart_replaceCart (carts : List Cart) (c : Cart) :
    replaceCartByUser (replaceCartByUser carts c) c = replaceCartByUser carts c := by
  induction carts with
  | nil => rfl
  | cons a l ih =>
    by_cases hau : a.user = c.user <;> simp [replaceCartByUser, hau, ih]

theorem replaceCart_append_absent {carts : List Cart} {c : Cart}
    (h : hasCartFor carts c.user = false) :
    replaceCartByUser (carts ++ [c]) c = carts ++ [c] := by
  induction carts with
  | nil => simp [replaceCartByUser]
  | cons a l ih =>
    unfold hasCartFor at h
    by_cases hau : a.user = c.user
    · rw [if_pos hau] at h; cases h
    · rw [if_neg hau] at h
      simp [replaceCartByUser, hau, ih h]

theorem hasCartFor_putCart (carts : List Cart) (c : Cart) :
    hasCartFor (putCart carts c) c.user = true := by
  unfold putCart
  split
  next h =>
    induction carts with
    | nil => simp [hasCartFor] at h
    | cons a l ih =>
      unfold hasCartFor at h
      by_cases hau : a.user = c.user <;> simp [replaceCartByUser, hasCartFor, hau]
      rw [if_neg hau] at h
      exact ih h
  next h =>
    induction carts with
    | nil => simp [hasCartFor]
    | cons a l ih =>
      by_cases hau : a.user = c.user <;> simp [hasCartFor, hau]
      exact ih (by simp [hasCartFor, hau] at h; simpa using h)

theorem findCart_putCart_of (carts : List Cart) (c : Cart) (u : Nat) (h : c.user = u) :
    findCart (putCart carts c) u = some c := by
  subst h
  exact findCart_putCart carts c

theorem putCart_idem (carts : List Cart) (c : Cart) :
    putCart (putCart carts c) c = putCart carts c := by
  have h1 := hasCartFor_putCart carts c
  unfold putCart at h1 ⊢
  rw [if_pos h1]
  split
  next => exact replaceCart_replaceCart carts c
  next h => exact replaceCart_append_absent (by simpa using h)

/-! ## Preservation of the stock invariant -/

theorem stocksNonneg_of_products_eq {db db1 : DB} (he : db1.products = db.products)
    (h : stocksNonneg db) : stocksNonneg db1 := by
  intro q hq
  exact h q (he ▸ hq)

theorem stocksNonneg_productSave {db db1 : DB} {p : Product}
    (hs : productSave db p = .ok db1) (h : stocksNonneg db) : stocksNonneg db1 := by
  obtain ⟨hst, -, rfl⟩ := productSave_ok hs
  intro q hq
  rcases mem_replaceProductById hq with rfl | hq2
  · exact hst
  · exact h q hq2

theorem stocksNonneg_decrementLoop (items : List OrderItem) :
    ∀ db : DB, stocksNonneg db → stocksNonneg (stockDecrementLoop db items).1 := by
  induction items with
  | nil => exact fun db h => h
  | cons it rest ih =>
    intro db h
    unfold stockDecrementLoop
    cases hfp : findProductById db it.product with
    | none => exact ih db h
    | some p =>
      dsimp only
      cases hs : productSave db { p with stock := p.stock - it.quantity } with
      | error e => exact h
      | ok db1 => exact ih db1 (stocksNonneg_productSave hs h)

theorem stocksNonneg_restoreLoop (items : List OrderItem) :
    ∀ db : DB, stocksNonneg db → stocksNonneg (stockRestoreLoop db items).1 := by
  induction items with
  | nil => exact fun db h => h
  | cons it rest ih =>
    intro db h
    unfold stockRestoreLoop
    cases hfp : findProductById db it.product with
    | none => exact ih db h
    | some p =>
      dsimp only
      cases hs : productSave db { p with stock := p.stock + it.quantity } with
      | error e => exact h
      | ok db1 => exact ih db1 (stocksNonneg_productSave hs h)

theorem addToCart_fst_products (db : DB) (u pid : Nat) (q : Int) (s c : String) :
    ((addToCart db u pid q s c).1).products = db.products := by
  unfold addToCart
  cases hfp : findProductById db pid with
  | none => rfl
  | some p =>
    dsimp only
    split
    · rfl
    · cases hm : mergeCartItem ((findCartByUser db u).getD { user := u, items := [] }).items pid q s c with
      | some pr =>
        obtain ⟨items1, newQ⟩ := pr
        dsimp only
        split
        · rfl
        · cases hs : cartSave db { (findCartByUser db u).getD { user := u, items := [] } with items := items1 } with
          | error e => rfl
          | ok db1 =>
            obtain ⟨-, rfl⟩ := cartSave_ok hs
            rfl
      | none =>
        dsimp only
        cases hs : cartSave { db with nextId := db.nextId + 1 }
            { (findCartByUser db u).getD { user := u, items := [] } with
              items := ((findCartByUser db u).getD { user := u, items := [] }).items ++
                [{ itemId := db.nextId, product := pid, quantity := q, size := s, color := c,
                   price := p.price }] } with
          | error e => rfl
          | ok db1 =>
            obtain ⟨-, rfl⟩ := cartSave_ok hs
            rfl

theorem updateCartItem_fst_products (db : DB) (u itemId : Nat) (q : Int) :
    ((updateCartItem db u itemId q).1).products = db.products := by
  unfold updateCartItem
  split
  · rfl
  · cases hc : findCartByUser db u with
    | none => rfl
    | some cart =>
      dsimp only
      cases hi : findItem cart.items itemId with
      | none => rfl
      | some item =>
        dsimp only
        cases hfp : findProductById db item.product with
        | none => rfl
        | some p =>
          dsimp only
          split
          · rfl
          · cases hs : cartSave db { cart with items := setItemQuantity cart.items itemId q } with
            | error e => rfl
            | ok db1 =>
              obtain ⟨-, rfl⟩ := cartSave_ok hs
              rfl

theorem removeFromCart_fst_products (db : DB) (u itemId : Nat) :
    ((removeFromCart db u itemId).1).products = db.products := by
  unfold removeFromCart
  cases hc : findCartByUser db u with
  | none => rfl
  | some cart =>
    dsimp only
    split
    · rfl
    · cases hs : cartSave db { cart with
        items := cart.items.filter fun it => decide (it.itemId ≠ itemId ∧ it.product ≠ itemId) } with
      | error e => rfl
      | ok db1 =>
        obtain ⟨-, rfl⟩ := cartSave_ok hs
        rfl

theorem clearCart_fst_products (db : DB) (u : Nat) :
    ((clearCart db u).1).products = db.products := by
  unfold clearCart
  cases hc : findCartByUser db u with
  | none => rfl
  | some cart =>
    dsimp only
    cases hs : cartSave db { cart with items := ([] : List CartItem) } with
    | error e => rfl
    | ok db1 =>
      obtain ⟨-, rfl⟩ := cartSave_ok hs
      rfl

theorem orderCreate_ok {db db1 : DB} {o : Order} {u : Nat} {items : List OrderItem}
    {addr : ShippingAddress} {pm : PaymentMethod} {ip tp sp tot : Int}
    (h : orderCreate db u items addr pm ip tp sp tot = .ok (db1, o)) :
    orderValid (newOrder db u items addr pm ip tp sp tot) = true ∧
      o = newOrder db u items addr pm ip tp sp tot ∧
      db1 = { db with orders := db.orders ++ [o], nextId := db.nextId + 1 } := by
  unfold orderCreate at h
  dsimp only at h
  split at h
  next hv =>
    injection h with h
    injection h with h1 h2
    subst h2
    exact ⟨hv, rfl, h1.symm⟩
  next => simp at h

/-- Each of the six operations preserves non-negativity of every persisted
stock (the product schema's `min: 0` check guards every save). -/
theorem stocksNonneg_applyOp (db : DB) (op : Op) (h : stocksNonneg db) :
    stocksNonneg (applyOp db op) := by
  cases op with
  | addToCart u pid q s c =>
    exact stocksNonneg_of_products_eq (addToCart_fst_products db u pid q s c) h
  | updateCartItem u itemId q =>
    exact stocksNonneg_of_products_eq (updateCartItem_fst_products db u itemId q) h
  | removeFromCart u itemId =>
    exact stocksNonneg_of_products_eq (removeFromCart_fst_products db u itemId) h
  | clearCart u =>
    exact stocksNonneg_of_products_eq (clearCart_fst_products db u) h
  | createOrder u items addr pm ip tp sp tot =>
    dsimp only [applyOp]
    unfold createOrder
    split
    · exact h
    · cases hoc : orderCreate db u items addr pm ip tp sp tot with
      | error e => exact h
      | ok pr =>
        obtain ⟨db1, o⟩ := pr
        obtain ⟨-, -, rfl⟩ := orderCreate_ok hoc
        dsimp only
        have h1 : stocksNonneg { db with orders := db.orders ++ [o], nextId := db.nextId + 1 } := h
        cases hl : stockDecrementLoop { db with orders := db.orders ++ [o], nextId := db.nextId + 1 } items with
        | mk db2 r =>
          have h2 := stocksNonneg_decrementLoop items _ h1
          rw [hl] at h2
          cases r <;> exact h2
  | cancelOrder rid role oid =>
    dsimp only [applyOp]
    unfold cancelOrder
    cases ho : findOrderById db oid with
    | none => exact h
    | some o =>
      dsimp only
      split
      · exact h
      · split
        · exact h
        · cases hs : orderSave db { o with status := OrderStatus.Cancelled } with
          | error e => exact h
          | ok db1 =>
            obtain ⟨-, rfl⟩ := orderSave_ok hs
            dsimp only
            have h1 : stocksNonneg { db with
                orders := replaceOrderById db.orders { o with status := OrderStatus.Cancelled } } := h
            cases hl : stockRestoreLoop { db with
                orders := replaceOrderById db.orders { o with status := OrderStatus.Cancelled } }
                ({ o with status := OrderStatus.Cancelled }).orderItems with
            | mk db2 r =>
              have h2 := stocksNonneg_restoreLoop
                ({ o with status := OrderStatus.Cancelled }).orderItems _ h1
              rw [hl] at h2
              cases r <;> exact h2

/-! ## The stock-restore loop of cancellation, in full -/

theorem itemsQty_nil (pid : Nat) : itemsQty [] pid = 0 := rfl

theorem itemsQty_cons (it : OrderItem) (rest : List OrderItem) (pid : Nat) :
    itemsQty (it :: rest) pid =
      (if it.product = pid then it.quantity else 0) + itemsQty rest pid := rfl

theorem orderValid_quantity {o : Order} (h : orderValid o = true) :
    ∀ it ∈ o.orderItems, (1 : Int) ≤ it.quantity := by
  intro it hit
  unfold orderValid at h
  rw [Bool.and_eq_true] at h
  have h1 := List.all_eq_true.mp h.1 it hit
  unfold orderItemValid at h1
  rw [Bool.and_eq_true, Bool.and_eq_true] at h1
  exact of_decide_eq_true h1.2

theorem productStock_congr {db db1 : DB} (he : db1.products = db.products) (pid : Nat) :
    productStock db1 pid = productStock db pid := by
  unfold productStock findProductById
  rw [he]

theorem productStock_save {db db1 : DB} {p p' : Product}
    (hfp : findProductById db p.pid = some p)
    (hsave : productSave db p' = .ok db1) (hpp : p'.pid = p.pid) :
    ∀ pid, productStock db1 pid =
      if pid = p.pid then some p'.stock else productStock db pid := by
  obtain ⟨-, -, rfl⟩ := productSave_ok hsave
  intro pid
  unfold productStock findProductById
  dsimp only
  rw [findProd_replace, hpp]
  by_cases hx : pid = p.pid
  · rw [if_pos hx, if_pos hx]
    unfold findProductById at hfp
    rw [hfp]
    rfl
  · rw [if_neg hx, if_neg hx]

theorem stockRestoreLoop_spec (items : List OrderItem) :
    ∀ db : DB, dbProductsValid db → (∀ it ∈ items, (1 : Int) ≤ it.quantity) →
      (stockRestoreLoop db items).2 = none ∧
      dbProductsValid (stockRestoreLoop db items).1 ∧
      (stockRestoreLoop db items).1.carts = db.carts ∧
      (stockRestoreLoop db items).1.orders = db.orders ∧
      (stockRestoreLoop db items).1.nextId = db.nextId ∧
      ∀ pid, productStock (stockRestoreLoop db items).1 pid =
        (productStock db pid).map fun s => s + itemsQty items pid := by
  induction items with
  | nil =>
    intro db hdb hq
    refine ⟨rfl, hdb, rfl, rfl, rfl, fun pid => ?_⟩
    cases h : productStock db pid <;> simp [stockRestoreLoop, itemsQty, h]
  | cons it rest ih =>
    intro db hdb hq
    unfold stockRestoreLoop
    cases hfp : findProductById db it.product with
    | none =>
      dsimp only
      obtain ⟨h2, hdbv, hc, ho, hn, hst⟩ :=
        ih db hdb (fun x hx => hq x (List.mem_cons_of_mem _ hx))
      refine ⟨h2, hdbv, hc, ho, hn, fun pid => ?_⟩
      rw [hst pid]
      by_cases hpe : it.product = pid
      · subst hpe
        have hnone : productStock db it.product = none := by
          unfold productStock
          rw [hfp]
          rfl
        rw [hnone]
        simp
      · rw [itemsQty_cons, if_neg hpe]
        cases hps : productStock db pid <;> simp [hps]
    | some p =>
      dsimp only
      obtain ⟨hpmem, hpid⟩ := findProd_mem (show findProd db.products it.product = some p from hfp)
      obtain ⟨hst0, hpr0⟩ := hdb p hpmem
      have hq1 : (1 : Int) ≤ it.quantity := hq it (List.mem_cons_self _ _)
      have hsave := productSave_eq_ok db { p with stock := p.stock + it.quantity }
        (by dsimp only; omega) (by dsimp only; omega)
      rw [hsave]
      dsimp only
      have hdb1 : dbProductsValid { db with
          products := replaceProductById db.products { p with stock := p.stock + it.quantity } } := by
        intro q hq2
        rcases mem_replaceProductById hq2 with rfl | hq3
        · exact ⟨by dsimp only; omega, by dsimp only; omega⟩
        · exact hdb q hq3
      obtain ⟨h2, hdbv, hc, ho, hn, hst⟩ :=
        ih _ hdb1 (fun x hx => hq x (List.mem_cons_of_mem _ hx))
      refine ⟨h2, hdbv, by rw [hc], by rw [ho], by rw [hn], fun pid => ?_⟩
      rw [hst pid]
      have hfp2 : findProductById db p.pid = some p := by rw [hpid]; exact hfp
      have hrepl := productStock_save hfp2 hsave rfl pid
      rw [hrepl, itemsQty_cons]
      by_cases hx : pid = p.pid
      · rw [if_pos hx]
        have hprod : productStock db pid = some p.stock := by
          unfold productStock
          rw [hx, hfp2]
          rfl
        rw [hprod, if_pos (hpid.symm.trans hx.symm)]
        simp only [Option.map_some']
        congr 1
        dsimp only
        omega
      · rw [if_neg hx, if_neg (show ¬ it.product = pid from fun hh => hx ((hpid.trans hh).symm))]
        cases hps : productStock db pid <;> simp [hps]

/-- Shared success-path characterization of `cancelOrder`: requester
authorized, status cancellable, order and products schema-valid.  The call
answers the cancelled order, persists it, and adds back each item's recorded
quantity to its product's stock (absent products are skipped and stay
absent). -/
theorem cancelOrder_success {db : DB} {oid rid : Nat} {role : Role} {o : Order}
    (ho : findOrderById db oid = some o)
    (hauth : o.user = rid ∨ role = Role.admin)
    (hs1 : o.status ≠ OrderStatus.Shipped) (hs2 : o.status ≠ OrderStatus.Delivered)
    (hov : orderValid o = true) (hdb : dbProductsValid db) :
    (cancelOrder db rid role oid).2 = .ok { o with status := OrderStatus.Cancelled } ∧
    findOrderById (cancelOrder db rid role oid).1 oid =
      some { o with status := OrderStatus.Cancelled } ∧
    dbProductsValid (cancelOrder db rid role oid).1 ∧
    (cancelOrder db rid role oid).1.carts = db.carts ∧
    ∀ pid, productStock (cancelOrder db rid role oid).1 pid =
      (productStock db pid).map fun s => s + itemsQty o.orderItems pid := by
  have hoid : o.oid = oid := (findOrd_mem ho).2
  unfold cancelOrder
  rw [ho]
  dsimp only
  have hg1 : ¬(o.user ≠ rid ∧ role ≠ Role.admin) := by
    rcases hauth with h | h
    · exact fun hc => hc.1 h
    · exact fun hc => hc.2 h
  have hg2 : ¬(o.status = OrderStatus.Shipped ∨ o.status = OrderStatus.Delivered) := by
    rintro (h | h)
    · exact hs1 h
    · exact hs2 h
  rw [if_neg hg1, if_neg hg2]
  have hov1 : orderValid { o with status := OrderStatus.Cancelled } = true := hov
  rw [orderSave_eq_ok db _ hov1]
  dsimp only
  have hdb1 : dbProductsValid { db with
      orders := replaceOrderById db.orders { o with status := OrderStatus.Cancelled } } := hdb
  have hqv : ∀ it ∈ ({ o with status := OrderStatus.Cancelled } : Order).orderItems,
      (1 : Int) ≤ it.quantity := fun it hit => orderValid_quantity hov it hit
  obtain ⟨h2, hdbv, hc, horders, hn, hst⟩ := stockRestoreLoop_spec _ _ hdb1 hqv
  cases hl : stockRestoreLoop { db with
      orders := replaceOrderById db.orders { o with status := OrderStatus.Cancelled } }
      ({ o with status := OrderStatus.Cancelled } : Order).orderItems with
  | mk db2 r =>
    rw [hl] at h2 hdbv hc horders hn hst
    replace h2 : r = none := h2
    subst h2
    refine ⟨rfl, ?_, hdbv, hc, fun pid => hst pid⟩
    have horders' : db2.orders =
        replaceOrderById db.orders { o with status := OrderStatus.Cancelled } := horders
    show findOrd db2.orders oid = some { o with status := OrderStatus.Cancelled }
    rw [horders', findOrd_replace]
    dsimp only
    rw [hoid, if_pos rfl]
    unfold findOrderById at ho
    rw [ho]
    rfl

theorem findCart_mem {carts : List Cart} {uid : Nat} {c : Cart}
    (h : findCart carts uid = some c) : c ∈ carts ∧ c.user = uid := by
  induction carts with
  | nil => simp [findCart] at h
  | cons a l ih =>
    unfold findCart at h
    split at h
    next ha => injection h with h; subst h; exact ⟨List.mem_cons_self _ _, ha⟩
    next ha =>
      rcases ih h with ⟨h1, h2⟩
      exact ⟨List.mem_cons_of_mem _ h1, h2⟩

/-! ## Cart-merge lemmas -/

theorem cartItemsOf_def (db : DB) (uid : Nat) :
    cartItemsOf db uid = ((findCartByUser db uid).getD { user := uid, items := [] }).items := rfl

theorem cartKey_eq_iff {it : CartItem} {pid : Nat} {size color : String} :
    cartKey it = (pid, size, color) ↔
      it.product = pid ∧ it.size = size ∧ it.color = color := by
  unfold cartKey
  simp [Prod.ext_iff]

theorem lookupKey_eq_none {items : List CartItem} {pid : Nat} {size color : String} :
    lookupKey items pid size color = none ↔
      ∀ it ∈ items, ¬(it.product = pid ∧ it.size = size ∧ it.color = color) := by
  induction items with
  | nil => simp [lookupKey]
  | cons it rest ih =>
    unfold lookupKey
    by_cases hk : it.product = pid ∧ it.size = size ∧ it.color = color
    · rw [if_pos hk]
      simp [hk]
    · rw [if_neg hk]
      rw [ih]
      constructor
      · intro h x hx
        rcases List.mem_cons.mp hx with rfl | hx1
        · exact hk
        · exact h x hx1
      · intro h x hx
        exact h x (List.mem_cons_of_mem _ hx)

theorem mergeCartItem_none {items : List CartItem} {pid : Nat} {q : Int} {size color : String} :
    mergeCartItem items pid q size color = none ↔ lookupKey items pid size color = none := by
  induction items with
  | nil => simp [mergeCartItem, lookupKey]
  | cons it rest ih =>
    unfold mergeCartItem lookupKey
    by_cases hk : it.product = pid ∧ it.size = size ∧ it.color = color
    · rw [if_pos hk, if_pos hk]
      simp
    · rw [if_neg hk, if_neg hk]
      cases hm : mergeCartItem rest pid q size color with
      | none => simp [ih.mp hm]
      | some pr =>
        obtain ⟨r1, nq⟩ := pr
        constructor
        · intro h
          simp at h
        · intro h
          have := ih.mpr h
          rw [hm] at this
          cases this

theorem mergeCartItem_some {items : List CartItem} {pid : Nat} {q : Int} {size color : String}
    {items1 : List CartItem} {newQ : Int}
    (h : mergeCartItem items pid q size color = some (items1, newQ)) :
    ∃ it0, lookupKey items pid size color = some it0 ∧
      newQ = it0.quantity + q ∧
      items1.map cartKey = items.map cartKey ∧
      items1.length = items.length ∧
      lookupKey items1 pid size color = some { it0 with quantity := it0.quantity + q } ∧
      ∀ it ∈ items1, it = { it0 with quantity := it0.quantity + q } ∨ it ∈ items := by
  induction items generalizing items1 newQ with
  | nil => simp [mergeCartItem] at h
  | cons it rest ih =>
    unfold mergeCartItem at h
    by_cases hk : it.product = pid ∧ it.size = size ∧ it.color = color
    · rw [if_pos hk] at h
      injection h with h
      injection h with h1 h2
      subst h1
      subst h2
      refine ⟨it, ?_, rfl, rfl, rfl, ?_, ?_⟩
      · unfold lookupKey
        rw [if_pos hk]
      · unfold lookupKey
        rw [if_pos hk]
      · intro x hx
        rcases List.mem_cons.mp hx with rfl | hx1
        · exact Or.inl rfl
        · exact Or.inr (List.mem_cons_of_mem _ hx1)
    · rw [if_neg hk] at h
      cases hm : mergeCartItem rest pid q size color with
      | none =>
        rw [hm] at h
        cases h
      | some pr =>
        obtain ⟨r1, nq⟩ := pr
        rw [hm] at h
        injection h with h
        injection h with h1 h2
        subst h1
        subst h2
        obtain ⟨it0, hl0, hq0, hmap, hlen, hlk, hmem⟩ := ih hm
        refine ⟨it0, ?_, hq0, ?_, ?_, ?_, ?_⟩
        · unfold lookupKey
          rw [if_neg hk]
          exact hl0
        · simp [hmap]
        · simp [hlen]
        · unfold lookupKey
          rw [if_neg hk]
          exact hlk
        · intro x hx
          rcases List.mem_cons.mp hx with rfl | hx1
          · exact Or.inr (List.mem_cons_self _ _)
          · rcases hmem x hx1 with h1 | h1
            · exact Or.inl h1
            · exact Or.inr (List.mem_cons_of_mem _ h1)

/-! ## Claims -/

/-- C1: the claim says `createOrder` with N line items is all-or-nothing —
either every listed product's stock is decremented and an order is returned,
or no stock changes and an error is returned.  The code violates this: with
two items of which the second exceeds its product's stock, the call persists
the order, decrements the first product from 5 to 3, leaves the second
product's stock unchanged, and returns an error — a partially-decremented
state with a persisted order is observable. -/
theorem C1_checkout_partial_state :
    ((createOrder dbTwoProducts 7 [itemP1q2, itemP2q3] addr1 PaymentMethod.COD 40 0 0 40).2 =
        Except.error (Err.schemaValidation
          "Product validation failed: stock is less than minimum allowed value (0)")) ∧
    productStock (createOrder dbTwoProducts 7 [itemP1q2, itemP2q3] addr1
        PaymentMethod.COD 40 0 0 40).1 1 = some 3 ∧
    productStock dbTwoProducts 1 = some 5 ∧
    productStock (createOrder dbTwoProducts 7 [itemP1q2, itemP2q3] addr1
        PaymentMethod.COD 40 0 0 40).1 2 = some 1 ∧
    productStock dbTwoProducts 2 = some 1 ∧
    (createOrder dbTwoProducts 7 [itemP1q2, itemP2q3] addr1
        PaymentMethod.COD 40 0 0 40).1.orders.length = 1 ∧
    dbTwoProducts.orders.length = 0 := by
  decide

/-- C2: for every product and every sequence of the six cart/order
operations, stock remains non-negative: starting from any state whose
persisted stocks are all non-negative, any operation sequence preserves
that — every stock write goes through `product.save()`, whose `min: 0`
schema validator rejects a negative value. -/
theorem C2_stock_never_negative (db : DB) (ops : List Op) (h : stocksNonneg db) :
    stocksNonneg (runOps db ops) := by
  induction ops generalizing db with
  | nil => exact h
  | cons op rest ih => exact ih (applyOp db op) (stocksNonneg_applyOp db op h)

/-- Witness for C2: a concrete state with non-negative stocks and a concrete
sequence exercising all six operations. -/
theorem C2_stock_never_negative_witness :
    stocksNonneg (runOps dbTwoProducts
      [Op.addToCart 1 1 2 "M" "red",
       Op.createOrder 1 [itemP1q2, itemP2q3] addr1 PaymentMethod.COD 40 0 0 40,
       Op.cancelOrder 1 Role.user 101,
       Op.updateCartItem 1 100 1,
       Op.removeFromCart 1 100,
       Op.clearCart 1]) :=
  C2_stock_never_negative _ _ (by decide)

/-- C3: `cancelOrder` on an order whose status is Shipped or Delivered always
fails and leaves the whole state (hence every product's stock) unchanged —
with the InvalidTransition error (400) when the requester is the owner or an
admin (a foreign requester is stopped by the ownership check first, still
with an error and no mutation); `cancelOrder` by the owner or an admin on an
order in any other status succeeds, persists the order with status
`Cancelled`, and increments each product's stock by exactly the total
quantity recorded for it in the order's items. -/
theorem C3_cancelOrder_guard_and_restore (db : DB) (oid rid : Nat) (role : Role) (o : Order)
    (ho : findOrderById db oid = some o)
    (hov : orderValid o = true) (hdb : dbProductsValid db) :
    ((o.status = OrderStatus.Shipped ∨ o.status = OrderStatus.Delivered) →
      ((cancelOrder db rid role oid).1 = db ∧
        ∃ msg code, (cancelOrder db rid role oid).2 = .error (.api msg code)) ∧
      ((o.user = rid ∨ role = Role.admin) →
        cancelOrder db rid role oid =
          (db, .error (.api "Cannot cancel order that has been shipped or delivered" 400)))) ∧
    ((o.user = rid ∨ role = Role.admin) →
      o.status ≠ OrderStatus.Shipped → o.status ≠ OrderStatus.Delivered →
      (cancelOrder db rid role oid).2 = .ok { o with status := OrderStatus.Cancelled } ∧
      findOrderById (cancelOrder db rid role oid).1 oid =
        some { o with status := OrderStatus.Cancelled } ∧
      ∀ pid, productStock (cancelOrder db rid role oid).1 pid =
        (productStock db pid).map fun s => s + itemsQty o.orderItems pid) := by
  constructor
  · intro hsd
    constructor
    · unfold cancelOrder
      rw [ho]
      dsimp only
      by_cases hg : o.user ≠ rid ∧ role ≠ Role.admin
      · rw [if_pos hg]
        exact ⟨rfl, "Not authorized to cancel this order", 401, rfl⟩
      · rw [if_neg hg, if_pos hsd]
        exact ⟨rfl, "Cannot cancel order that has been shipped or delivered", 400, rfl⟩
    · intro hauth
      have hg1 : ¬(o.user ≠ rid ∧ role ≠ Role.admin) := by
        rcases hauth with h | h
        · exact fun hc => hc.1 h
        · exact fun hc => hc.2 h
      unfold cancelOrder
      rw [ho]
      dsimp only
      rw [if_neg hg1, if_pos hsd]
  · intro hauth hs1 hs2
    obtain ⟨ha, hb, -, -, he⟩ := cancelOrder_success ho hauth hs1 hs2 hov hdb
    exact ⟨ha, hb, he⟩

/-- Witness for C3: a concrete Processing order of user 1 holding 2 units of
product 1 (stock 5); cancellation by the owner succeeds and the stock
becomes 7. -/
theorem C3_cancelOrder_guard_and_restore_witness :
    (cancelOrder dbWithOrder 1 Role.user 50).2 =
        .ok { orderOfUser1 with status := OrderStatus.Cancelled } ∧
    productStock (cancelOrder dbWithOrder 1 Role.user 50).1 1 = some 7 := by
  obtain ⟨-, h2⟩ := C3_cancelOrder_guard_and_restore dbWithOrder 50 1 Role.user orderOfUser1
    (by decide) (by decide) (by decide)
  obtain ⟨ha, -, he⟩ := h2 (Or.inl rfl) (by decide) (by decide)
  refine ⟨ha, ?_⟩
  rw [he 1]
  decide

/-- C10: a further `cancelOrder` on an already-Cancelled order by the owner
or an admin succeeds again (the guard only blocks Shipped and Delivered): it
answers the order with status still Cancelled and adds each listed product's
recorded quantity onto its stock once more, so two successive cancellations
add the quantity twice. -/
theorem C10_cancel_cancelled_again (db : DB) (oid rid : Nat) (role : Role) (o : Order)
    (ho : findOrderById db oid = some o) (hstat : o.status = OrderStatus.Cancelled)
    (hauth : o.user = rid ∨ role = Role.admin)
    (hov : orderValid o = true) (hdb : dbProductsValid db) :
    (cancelOrder db rid role oid).2 = .ok { o with status := OrderStatus.Cancelled } ∧
    (cancelOrder (cancelOrder db rid role oid).1 rid role oid).2 =
      .ok { o with status := OrderStatus.Cancelled } ∧
    ∀ pid, productStock (cancelOrder (cancelOrder db rid role oid).1 rid role oid).1 pid =
      (productStock db pid).map fun s =>
        s + (itemsQty o.orderItems pid + itemsQty o.orderItems pid) := by
  have hs1 : o.status ≠ OrderStatus.Shipped := by
    rw [hstat]
    exact fun h => OrderStatus.noConfusion h
  have hs2 : o.status ≠ OrderStatus.Delivered := by
    rw [hstat]
    exact fun h => OrderStatus.noConfusion h
  obtain ⟨ha, hb, hv1, -, he1⟩ := cancelOrder_success ho hauth hs1 hs2 hov hdb
  have hov1 : orderValid { o with status := OrderStatus.Cancelled } = true := hov
  have hauth1 : ({ o with status := OrderStatus.Cancelled } : Order).user = rid ∨
      role = Role.admin := hauth
  obtain ⟨ha2, hb2, hv2, -, he2⟩ := cancelOrder_success hb hauth1
    (fun h => OrderStatus.noConfusion h) (fun h => OrderStatus.noConfusion h) hov1 hv1
  refine ⟨ha, ha2, fun pid => ?_⟩
  have he2p := he2 pid
  rw [he1 pid] at he2p
  rw [he2p]
  dsimp only
  cases hx : productStock db pid with
  | none => rfl
  | some v => simp [add_assoc]

/-- Witness for C10: the Cancelled order of user 1 (2 units of product 1,
stock 5); two further owner cancellations leave it Cancelled and push the
stock to 9. -/
theorem C10_cancel_cancelled_again_witness :
    productStock (cancelOrder (cancelOrder dbWithCancelledOrder 1 Role.user 50).1
      1 Role.user 50).1 1 = some 9 := by
  obtain ⟨-, -, he⟩ := C10_cancel_cancelled_again dbWithCancelledOrder 50 1 Role.user
    { orderOfUser1 with status := OrderStatus.Cancelled }
    (by decide) rfl (Or.inl rfl) (by decide) (by decide)
  rw [he 1]
  decide

/-- C5: after every successful `addToCart` on a cart satisfying the
at-most-one-item-per-(product, size, color) invariant, the invariant still
holds; adding to an existing key keeps the item count and increases that one
item's quantity by the added quantity, while a new key appends exactly one
item that records the product's current price. -/
theorem C5_addToCart_merge_invariant (db : DB) (uid pid : Nat) (qty : Int)
    (size color : String) (c : Cart)
    (hu : uniqueKeys (cartItemsOf db uid))
    (hsucc : (addToCart db uid pid qty size color).2 = .ok c) :
    uniqueKeys c.items ∧
    (∀ it0, lookupKey (cartItemsOf db uid) pid size color = some it0 →
      c.items.length = (cartItemsOf db uid).length ∧
      lookupKey c.items pid size color = some { it0 with quantity := it0.quantity + qty }) ∧
    (lookupKey (cartItemsOf db uid) pid size color = none →
      ∃ p, findProductById db pid = some p ∧
        c.items = cartItemsOf db uid ++
          [{ itemId := db.nextId, product := pid, quantity := qty, size := size, color := color,
             price := p.price }]) := by
  cases hfp : findProductById db pid with
  | none =>
    unfold addToCart at hsucc
    rw [hfp] at hsucc
    cases hsucc
  | some p =>
    unfold addToCart at hsucc
    rw [hfp] at hsucc
    dsimp only at hsucc
    rw [← cartItemsOf_def] at hsucc
    split at hsucc
    · cases hsucc
    · cases hm : mergeCartItem (cartItemsOf db uid) pid qty size color with
      | some pr =>
        obtain ⟨items1, newQ⟩ := pr
        rw [hm] at hsucc
        dsimp only at hsucc
        split at hsucc
        · cases hsucc
        · cases hs : cartSave db
              { (findCartByUser db uid).getD { user := uid, items := [] } with items := items1 } with
          | error e =>
            rw [hs] at hsucc
            cases hsucc
          | ok db1 =>
            rw [hs] at hsucc
            injection hsucc with hsucc
            subst hsucc
            obtain ⟨it0, hl0, hq0, hmap, hlen, hlk, hmem⟩ := mergeCartItem_some hm
            refine ⟨?_, ?_, ?_⟩
            · unfold uniqueKeys at hu ⊢
              rw [show ({ (findCartByUser db uid).getD { user := uid, items := [] } with
                items := items1 } : Cart).items = items1 from rfl, hmap]
              exact hu
            · intro it0x hl0x
              rw [hl0] at hl0x
              injection hl0x with hl0x
              subst hl0x
              exact ⟨hlen, hlk⟩
            · intro hnone
              rw [hl0] at hnone
              cases hnone
      | none =>
        rw [hm] at hsucc
        dsimp only at hsucc
        cases hs : cartSave { db with nextId := db.nextId + 1 }
            { (findCartByUser db uid).getD { user := uid, items := [] } with
              items := cartItemsOf db uid ++
                [{ itemId := db.nextId, product := pid, quantity := qty, size := size,
                   color := color, price := p.price }] } with
        | error e =>
          rw [hs] at hsucc
          cases hsucc
        | ok db1 =>
          rw [hs] at hsucc
          injection hsucc with hsucc
          subst hsucc
          have hnone := mergeCartItem_none.mp hm
          have hkey : (pid, size, color) ∉ (cartItemsOf db uid).map cartKey := by
            intro hmem
            obtain ⟨x, hx, hkx⟩ := List.mem_map.mp hmem
            exact (lookupKey_eq_none.mp hnone x hx) (cartKey_eq_iff.mp hkx)
          refine ⟨?_, ?_, ?_⟩
          · unfold uniqueKeys at hu ⊢
            rw [show ({ (findCartByUser db uid).getD { user := uid, items := [] } with
              items := cartItemsOf db uid ++
                [{ itemId := db.nextId, product := pid, quantity := qty, size := size,
                   color := color, price := p.price }] } : Cart).items =
              cartItemsOf db uid ++
                [{ itemId := db.nextId, product := pid, quantity := qty, size := size,
                   color := color, price := p.price }] from rfl]
            rw [List.map_append]
            simp only [List.map_cons, List.map_nil]
            refine List.Nodup.append hu (List.nodup_singleton _) ?_
            intro x hx1 hx2
            simp only [List.mem_singleton] at hx2
            subst hx2
            exact hkey hx1
          · intro it0 hl0
            rw [hnone] at hl0
            cases hl0
          · intro _
            exact ⟨p, rfl, rfl⟩

/-- Witness for C5: user 1's cart holds one item (product 1, size M, red,
quantity 3, stock 10); adding 2 more of the same key succeeds and merges into
a single item of quantity 5 — the theorem's hypotheses hold at this input. -/
theorem C5_addToCart_merge_invariant_witness :
    uniqueKeys ([{ itemId := 20, product := 1, quantity := 5, size := "M",
                   color := "red", price := 5 }] : List CartItem) ∧
    ([{ itemId := 20, product := 1, quantity := 5, size := "M",
        color := "red", price := 5 }] : List CartItem).length =
      (cartItemsOf dbCartQty3 1).length ∧
    lookupKey [{ itemId := 20, product := 1, quantity := 5, size := "M",
                 color := "red", price := 5 }] 1 "M" "red" =
      some { itemId := 20, product := 1, quantity := 5, size := "M",
             color := "red", price := 5 } := by
  obtain ⟨h1, h2, -⟩ := C5_addToCart_merge_invariant dbCartQty3 1 1 2 "M" "red"
    { user := 1, items := [{ itemId := 20, product := 1, quantity := 5, size := "M",
                             color := "red", price := 5 }] } (by decide) (by decide)
  have h3 := h2 { itemId := 20, product := 1, quantity := 3, size := "M",
                  color := "red", price := 5 } (by decide)
  exact ⟨h1, h3.1, h3.2⟩
/-- C7: the claim says `clearCart` never fails, including for a user with no
cart document yet.  It does fail: with no cart for user 1 the call returns
the NotFound (404) error and changes nothing. -/
theorem C7_clearCart_fails_without_cart :
    findCartByUser dbStockZero 1 = none ∧
    clearCart dbStockZero 1 = (dbStockZero, .error (.api "Cart not found" 404)) := by
  decide

/-- C7 (amended): `clearCart` on a user who has a cart document succeeds,
empties and persists the item list, and is idempotent (a second call returns
the same state and response); on a user with no cart document it fails
NotFound (404) and leaves the state unchanged. -/
theorem C7_clearCart_amended (db : DB) (uid : Nat) :
    (findCartByUser db uid = none →
      clearCart db uid = (db, .error (.api "Cart not found" 404))) ∧
    ∀ cart, findCartByUser db uid = some cart →
      (clearCart db uid).2 = .ok { cart with items := ([] : List CartItem) } ∧
      findCartByUser (clearCart db uid).1 uid =
        some { cart with items := ([] : List CartItem) } ∧
      clearCart (clearCart db uid).1 uid =
        ((clearCart db uid).1, .ok { cart with items := ([] : List CartItem) }) := by
  constructor
  · intro h
    unfold clearCart
    rw [h]
  · intro cart hc
    have hcu : cart.user = uid := (findCart_mem hc).2
    have hfind2 : findCartByUser
        { db with carts := putCart db.carts { cart with items := ([] : List CartItem) } } uid =
        some { cart with items := ([] : List CartItem) } := by
      unfold findCartByUser
      dsimp only
      exact findCart_putCart_of db.carts { cart with items := ([] : List CartItem) } uid hcu
    unfold clearCart
    rw [hc]
    dsimp only
    rw [cartSave_eq_ok db { cart with items := ([] : List CartItem) } rfl]
    dsimp only
    refine ⟨rfl, hfind2, ?_⟩
    rw [hfind2]
    dsimp only
    rw [cartSave_eq_ok _ { ({ cart with items := ([] : List CartItem) } : Cart) with items := ([] : List CartItem) } rfl]
    dsimp only
    rw [show putCart (putCart db.carts { cart with items := ([] : List CartItem) })
        { cart with items := ([] : List CartItem) } =
        putCart db.carts { cart with items := ([] : List CartItem) } from
      putCart_idem db.carts { cart with items := ([] : List CartItem) }]

/-- Witness for C7 (amended): user 1 has a cart with one item; clearing it
succeeds with an empty item list and clearing again returns the same state
and response. -/
theorem C7_clearCart_amended_witness :
    (clearCart dbCartQty3 1).2 = .ok { user := 1, items := ([] : List CartItem) } ∧
    clearCart (clearCart dbCartQty3 1).1 1 =
      ((clearCart dbCartQty3 1).1, .ok { user := 1, items := ([] : List CartItem) }) := by
  obtain ⟨-, h⟩ := C7_clearCart_amended dbCartQty3 1
  obtain ⟨h1, -, h3⟩ := h { user := 1,
                            items := [{ itemId := 20, product := 1, quantity := 3,
                                        size := "M", color := "red", price := 5 }] } (by decide)
  exact ⟨h1, h3⟩

/-- C4: the claim says an insufficient-stock `createOrder` fails with
InsufficientStock (commit re-validates rather than decrementing).  At stock 0
and quantity 1 the call does fail and the stock stays 0, but the error is the
Mongoose min-0 ValidationError (rendered 500), not the InsufficientStock api
error (400) — and the order document has already been persisted. -/
theorem C4_insufficient_commit_counterexample :
    (createOrder dbStockZero 7 [itemP1q1] addr1 PaymentMethod.COD 10 0 0 10).2 =
      .error (.schemaValidation
        "Product validation failed: stock is less than minimum allowed value (0)") ∧
    (createOrder dbStockZero 7 [itemP1q1] addr1 PaymentMethod.COD 10 0 0 10).2 ≠
      .error (.api "Insufficient stock" 400) ∧
    productStock (createOrder dbStockZero 7 [itemP1q1] addr1
      PaymentMethod.COD 10 0 0 10).1 1 = some 0 ∧
    (createOrder dbStockZero 7 [itemP1q1] addr1 PaymentMethod.COD 10 0 0 10).1.orders.length = 1 ∧
    dbStockZero.orders.length = 0 := by
  decide

/-- C4 (amended): when a single-item order's quantity exceeds the product's
stock at commit time, the decrement's `save()` fails the schema's min-0
validation, so no stock is decremented and the call returns an error — but
the error is the schema ValidationError, not InsufficientStock, and the
order document has already been persisted.  In particular, after stock
reaches 0 a `createOrder` of quantity 1 for that product fails this way. -/
theorem C4_insufficient_commit_amended (db : DB) (uid : Nat) (it : OrderItem)
    (addr : ShippingAddress) (pm : PaymentMethod) (ip tp sp tot : Int) (p : Product)
    (hp : findProductById db it.product = some p)
    (hlt : p.stock < it.quantity)
    (hvi : orderItemValid it = true) (hva : shippingAddressValid addr = true) :
    (createOrder db uid [it] addr pm ip tp sp tot).2 =
      .error (.schemaValidation
        "Product validation failed: stock is less than minimum allowed value (0)") ∧
    (∀ pid, productStock (createOrder db uid [it] addr pm ip tp sp tot).1 pid =
      productStock db pid) ∧
    (createOrder db uid [it] addr pm ip tp sp tot).1.orders =
      db.orders ++ [newOrder db uid [it] addr pm ip tp sp tot] := by
  have hov : orderValid (newOrder db uid [it] addr pm ip tp sp tot) = true := by
    unfold orderValid newOrder
    dsimp only
    simp [hvi, hva]
  unfold createOrder
  rw [if_neg (by simp)]
  unfold orderCreate
  dsimp only
  rw [if_pos hov]
  dsimp only
  unfold stockDecrementLoop
  have hp1 : findProductById { db with
      orders := db.orders ++ [newOrder db uid [it] addr pm ip tp sp tot],
      nextId := db.nextId + 1 } it.product = some p := hp
  rw [hp1]
  dsimp only
  have hserr : productSave { db with
      orders := db.orders ++ [newOrder db uid [it] addr pm ip tp sp tot],
      nextId := db.nextId + 1 } { p with stock := p.stock - it.quantity } =
      .error (.schemaValidation
        "Product validation failed: stock is less than minimum allowed value (0)") := by
    unfold productSave
    rw [if_pos (by dsimp only; omega)]
  rw [hserr]
  exact ⟨rfl, fun pid => rfl, rfl⟩

/-- Witness for C4 (amended): product 1 with stock 0, order of quantity 1 —
the hypotheses hold and the call errors while leaving the stock at 0. -/
theorem C4_insufficient_commit_amended_witness :
    (createOrder dbStockZero 7 [itemP1q1] addr1 PaymentMethod.COD 10 0 0 10).2 =
      .error (.schemaValidation
        "Product validation failed: stock is less than minimum allowed value (0)") ∧
    productStock (createOrder dbStockZero 7 [itemP1q1] addr1
      PaymentMethod.COD 10 0 0 10).1 1 = productStock dbStockZero 1 := by
  obtain ⟨h1, h2, -⟩ := C4_insufficient_commit_amended dbStockZero 7 itemP1q1 addr1
    PaymentMethod.COD 10 0 0 10 { pid := 1, price := 10, stock := 0 }
    (by decide) (by decide) (by decide) (by decide)
  exact ⟨h1, h2 1⟩

/-- C6: the claim says every read or mutation of an order by a requester who
is neither owner nor admin fails — in particular marking it paid.  But
`updateOrderToPaid` never consults the requester: user 2 with role `user`
marks user 1's order paid, the call succeeds and persists
isPaid/paidAt/paymentResult. -/
theorem C6_pay_no_ownership_check_counterexample :
    orderOfUser1.user = 1 ∧
    orderOfUser1.isPaid = false ∧
    (updateOrderToPaid dbWithOrder 2 Role.user 50 receipt1 123).2 =
      .ok { orderOfUser1 with isPaid := true, paidAt := some 123,
                              paymentResult := some receipt1 } ∧
    findOrderById (updateOrderToPaid dbWithOrder 2 Role.user 50 receipt1 123).1 50 =
      some { orderOfUser1 with isPaid := true, paidAt := some 123,
                               paymentResult := some receipt1 } := by
  decide

/-- C6 (amended): `getOrderById` and `cancelOrder` do enforce owner-or-admin
(a requester who is neither gets 401 and `cancelOrder` leaves the state
unchanged), but `updateOrderToPaid` performs no ownership check: for every
requester identity and role it succeeds on an existing schema-valid order and
sets isPaid, paidAt, paymentResult. -/
theorem C6_pay_no_ownership_check_amended (db : DB) (oid rid : Nat) (role : Role)
    (o : Order) (payment : PaymentResult) (now : Nat)
    (ho : findOrderById db oid = some o) (hov : orderValid o = true) :
    (o.user ≠ rid → role ≠ Role.admin →
      getOrderById db rid role oid =
        (db, .error (.api "Not authorized to view this order" 401)) ∧
      cancelOrder db rid role oid =
        (db, .error (.api "Not authorized to cancel this order" 401))) ∧
    updateOrderToPaid db rid role oid payment now =
      ({ db with orders := replaceOrderById db.orders
                   { o with isPaid := true, paidAt := some now,
                            paymentResult := some payment } },
        .ok { o with isPaid := true, paidAt := some now,
                     paymentResult := some payment }) := by
  constructor
  · intro h1 h2
    constructor
    · unfold getOrderById
      rw [ho]
      dsimp only
      rw [if_pos ⟨h1, h2⟩]
    · unfold cancelOrder
      rw [ho]
      dsimp only
      rw [if_pos ⟨h1, h2⟩]
  · unfold updateOrderToPaid
    rw [ho]
    dsimp only
    rw [orderSave_eq_ok db { o with isPaid := true, paidAt := some now, paymentResult := some payment } hov]

/-- Witness for C6 (amended): user 2 (role user) against user 1's order —
the read is rejected 401 while the pay mutation succeeds. -/
theorem C6_pay_no_ownership_check_amended_witness :
    getOrderById dbWithOrder 2 Role.user 50 =
      (dbWithOrder, .error (.api "Not authorized to view this order" 401)) ∧
    (updateOrderToPaid dbWithOrder 2 Role.user 50 receipt1 123).2 =
      .ok { orderOfUser1 with isPaid := true, paidAt := some 123,
                              paymentResult := some receipt1 } := by
  obtain ⟨h1, h2⟩ := C6_pay_no_ownership_check_amended dbWithOrder 50 2 Role.user
    orderOfUser1 receipt1 123 (by decide) (by decide)
  obtain ⟨ha, -⟩ := h1 (by decide) (by decide)
  refine ⟨ha, ?_⟩
  rw [h2]

/-- C8: the claim says `addToCart` validates `quantity >= 1`: any request
with quantity < 1 fails with a validation error and leaves the cart
unchanged.  There is no such check: adding quantity -2 to an existing item
of quantity 3 (stock 10) succeeds and stores quantity 1. -/
theorem C8_addToCart_no_min_quantity_counterexample :
    ((-2 : Int) < 1) ∧
    (addToCart dbCartQty3 1 1 (-2) "M" "red").2 =
      .ok { user := 1, items := [{ itemId := 20, product := 1, quantity := 1, size := "M", color := "red", price := 5 }] } ∧
    findCartByUser (addToCart dbCartQty3 1 1 (-2) "M" "red").1 1 =
      some { user := 1, items := [{ itemId := 20, product := 1, quantity := 1, size := "M", color := "red", price := 5 }] } := by
  decide

/-- C8 (amended): `addToCart` fails NotFound when the product is absent and
InsufficientStock when `product.stock < quantity` (or, on a merge,
`< existingQuantity + quantity`), as claimed — but it performs no explicit
`quantity >= 1` check: appending a new item with quantity < 1 only fails the
(spec-modelled) cart schema's positive-quantity validation at save time,
while a merge whose summed quantity is still >= 1 succeeds even with
quantity < 1 and adjusts the stored quantity. -/
theorem C8_addToCart_amended (db : DB) (uid pid : Nat) (qty : Int) (size color : String) :
    (findProductById db pid = none →
      addToCart db uid pid qty size color = (db, .error (.api "Product not found" 404))) ∧
    (∀ p, findProductById db pid = some p → p.stock < qty →
      addToCart db uid pid qty size color = (db, .error (.api "Insufficient stock" 400))) ∧
    (∀ p it0, findProductById db pid = some p → ¬ p.stock < qty →
      lookupKey (cartItemsOf db uid) pid size color = some it0 →
      p.stock < it0.quantity + qty →
      addToCart db uid pid qty size color =
        (db, .error (.api "Insufficient stock for requested quantity" 400))) ∧
    (∀ p, findProductById db pid = some p → ¬ p.stock < qty →
      lookupKey (cartItemsOf db uid) pid size color = none → qty < 1 →
      addToCart db uid pid qty size color =
        (db, .error (.schemaValidation
          "Cart validation failed: quantity is less than minimum allowed value (1)"))) ∧
    (∀ p it0, findProductById db pid = some p → ¬ p.stock < qty →
      lookupKey (cartItemsOf db uid) pid size color = some it0 →
      ¬ p.stock < it0.quantity + qty → 1 ≤ it0.quantity + qty →
      (cartItemsOf db uid).all cartItemValid = true →
      ∃ c1 : Cart, addToCart db uid pid qty size color =
        ({ db with carts := putCart db.carts c1 }, .ok c1) ∧
        lookupKey c1.items pid size color =
          some { it0 with quantity := it0.quantity + qty }) := by
  refine ⟨?_, ?_, ?_, ?_, ?_⟩
  · intro h
    unfold addToCart
    rw [h]
  · intro p hp hlt
    unfold addToCart
    rw [hp]
    dsimp only
    rw [if_pos hlt]
  · intro p it0 hp hstk hl hover
    unfold addToCart
    rw [hp]
    dsimp only
    rw [if_neg hstk, ← cartItemsOf_def]
    cases hm : mergeCartItem (cartItemsOf db uid) pid qty size color with
    | none =>
      rw [mergeCartItem_none.mp hm] at hl
      cases hl
    | some pr =>
      obtain ⟨items1, newQ⟩ := pr
      obtain ⟨it0x, hl0, hq0, -, -, -, -⟩ := mergeCartItem_some hm
      rw [hl0] at hl
      injection hl with hl
      subst hl
      dsimp only
      rw [if_pos (by rw [hq0]; exact hover)]
  · intro p hp hstk hl hq
    unfold addToCart
    rw [hp]
    dsimp only
    rw [if_neg hstk, ← cartItemsOf_def]
    rw [mergeCartItem_none.mpr hl]
    dsimp only
    have hnew : cartItemValid { itemId := db.nextId, product := pid, quantity := qty, size := size, color := color, price := p.price } = false := by
      unfold cartItemValid
      dsimp only
      rw [decide_eq_false]
      omega
    unfold cartSave
    rw [show ({ (findCartByUser db uid).getD { user := uid, items := [] } with items := cartItemsOf db uid ++ [{ itemId := db.nextId, product := pid, quantity := qty, size := size, color := color, price := p.price }] } : Cart).items = cartItemsOf db uid ++ [{ itemId := db.nextId, product := pid, quantity := qty, size := size, color := color, price := p.price }] from rfl]
    rw [List.all_append]
    simp only [List.all_cons, List.all_nil, hnew, Bool.false_and, Bool.and_false]
    rfl
  · intro p it0 hp hstk hl hfits hsum hvalid
    unfold addToCart
    rw [hp]
    dsimp only
    rw [if_neg hstk, ← cartItemsOf_def]
    cases hm : mergeCartItem (cartItemsOf db uid) pid qty size color with
    | none =>
      rw [mergeCartItem_none.mp hm] at hl
      cases hl
    | some pr =>
      obtain ⟨items1, newQ⟩ := pr
      obtain ⟨it0x, hl0, hq0, -, -, hlk, hmem⟩ := mergeCartItem_some hm
      rw [hl0] at hl
      injection hl with hl
      subst hl
      dsimp only
      rw [if_neg (by rw [hq0]; exact hfits)]
      have hall : items1.all cartItemValid = true := by
        rw [List.all_eq_true]
        intro x hx
        rcases hmem x hx with rfl | hx2
        · unfold cartItemValid
          dsimp only
          exact decide_eq_true hsum
        · exact List.all_eq_true.mp hvalid x hx2
      rw [cartSave_eq_ok db { (findCartByUser db uid).getD { user := uid, items := [] } with items := items1 } hall]
      exact ⟨{ (findCartByUser db uid).getD { user := uid, items := [] } with items := items1 }, rfl, hlk⟩

/-- Witness for C8 (amended): product 99 is absent (NotFound branch), and the
quantity -2 merge on an existing quantity-3 item succeeds with stored
quantity 1. -/
theorem C8_addToCart_amended_witness :
    addToCart dbCartQty3 1 99 1 "M" "red" =
      (dbCartQty3, .error (.api "Product not found" 404)) ∧
    ∃ c1 : Cart, addToCart dbCartQty3 1 1 (-2) "M" "red" =
      ({ dbCartQty3 with carts := putCart dbCartQty3.carts c1 }, .ok c1) ∧
      lookupKey c1.items 1 "M" "red" =
        some { itemId := 20, product := 1, quantity := 1, size := "M", color := "red", price := 5 } := by
  obtain ⟨ha, -, -, -, -⟩ := C8_addToCart_amended dbCartQty3 1 99 1 "M" "red"
  obtain ⟨-, -, -, -, he⟩ := C8_addToCart_amended dbCartQty3 1 1 (-2) "M" "red"
  refine ⟨ha (by decide), ?_⟩
  obtain ⟨c1, h1, h2⟩ := he { pid := 1, price := 5, stock := 10 }
    { itemId := 20, product := 1, quantity := 3, size := "M", color := "red", price := 5 }
    (by decide) (by decide) (by decide) (by decide) (by decide) (by decide)
  exact ⟨c1, h1, h2⟩

/-- C9: the claim says a successful addToCart for a key followed by a
successful removeFromCart for the same key returns the cart to its prior
item count.  Not when the add merges: a cart with one item (product 1, M,
red, quantity 1); adding the same key succeeds by merging (count still 1);
removing that item succeeds and the count drops to 0, not back to 1. -/
theorem C9_roundtrip_counterexample :
    (cartItemsOf dbCartQty1 1).length = 1 ∧
    (addToCart dbCartQty1 1 1 1 "M" "red").2 =
      .ok { user := 1, items := [{ itemId := 20, product := 1, quantity := 2, size := "M", color := "red", price := 5 }] } ∧
    (removeFromCart (addToCart dbCartQty1 1 1 1 "M" "red").1 1 20).2 =
      .ok { user := 1, items := ([] : List CartItem) } ∧
    (0 : Nat) ≠ (cartItemsOf dbCartQty1 1).length := by
  decide

/-- C9 (amended): the round-trip holds when the added key is new: with the
user's cart items all schema-valid, the (product, size, color) key absent,
the product present with sufficient stock, quantity ≥ 1, and no existing
item's subdocument id or product id equal to the fresh item id, `addToCart`
appends exactly one item and `removeFromCart` with the fresh item's id
removes exactly it, restoring the prior item list and count; when the add
merges into an existing item instead, the removal drops the count below the
prior count. -/
theorem C9_roundtrip_amended (db : DB) (uid pid : Nat) (qty : Int) (size color : String)
    (p : Product)
    (hp : findProductById db pid = some p)
    (hstk : ¬ p.stock < qty) (hq1 : (1 : Int) ≤ qty)
    (hkey : lookupKey (cartItemsOf db uid) pid size color = none)
    (hvalid : (cartItemsOf db uid).all cartItemValid = true)
    (hnocollide : ∀ it ∈ cartItemsOf db uid, it.itemId ≠ db.nextId ∧ it.product ≠ db.nextId) :
    respOk (addToCart db uid pid qty size color).2 = true ∧
    ∃ c2 : Cart,
      (removeFromCart (addToCart db uid pid qty size color).1 uid db.nextId).2 = .ok c2 ∧
      c2.items = cartItemsOf db uid := by
  have hu1 : ((findCartByUser db uid).getD { user := uid, items := [] }).user = uid := by
    cases hfc : findCartByUser db uid with
    | none => rfl
    | some c0 => exact (findCart_mem hfc).2
  have hnewv : cartItemValid { itemId := db.nextId, product := pid, quantity := qty, size := size, color := color, price := p.price } = true := by
    unfold cartItemValid
    dsimp only
    exact decide_eq_true hq1
  have hall : (cartItemsOf db uid ++ ([{ itemId := db.nextId, product := pid, quantity := qty, size := size, color := color, price := p.price }] : List CartItem)).all cartItemValid = true := by
    rw [List.all_append, hvalid]
    simp only [List.all_cons, List.all_nil, hnewv, Bool.and_true, Bool.true_and]
  unfold addToCart
  rw [hp]
  dsimp only
  rw [if_neg hstk, ← cartItemsOf_def]
  rw [mergeCartItem_none.mpr hkey]
  dsimp only
  rw [cartSave_eq_ok _ { user := ((findCartByUser db uid).getD { user := uid, items := [] }).user, items := cartItemsOf db uid ++ ([{ itemId := db.nextId, product := pid, quantity := qty, size := size, color := color, price := p.price }] : List CartItem) } hall]
  refine ⟨rfl, ?_⟩
  unfold removeFromCart
  unfold findCartByUser
  dsimp only
  rw [findCart_putCart_of db.carts { user := ((findCart db.carts uid).getD { user := uid, items := [] }).user, items := cartItemsOf db uid ++ ([{ itemId := db.nextId, product := pid, quantity := qty, size := size, color := color, price := p.price }] : List CartItem) } uid hu1]
  dsimp only
  have hfil : (cartItemsOf db uid ++ ([{ itemId := db.nextId, product := pid, quantity := qty, size := size, color := color, price := p.price }] : List CartItem)).filter
      (fun it => decide (it.itemId ≠ db.nextId ∧ it.product ≠ db.nextId)) =
      cartItemsOf db uid := by
    rw [List.filter_append]
    have h1 : (cartItemsOf db uid).filter
        (fun it => decide (it.itemId ≠ db.nextId ∧ it.product ≠ db.nextId)) =
        cartItemsOf db uid := by
      rw [List.filter_eq_self]
      intro a ha
      exact decide_eq_true (hnocollide a ha)
    have h2 : ([{ itemId := db.nextId, product := pid, quantity := qty, size := size, color := color, price := p.price }] : List CartItem).filter
        (fun it => decide (it.itemId ≠ db.nextId ∧ it.product ≠ db.nextId)) = [] := by
      simp
    rw [h1, h2, List.append_nil]
  rw [hfil]
  rw [if_neg (by
    rw [List.length_append]
    simp)]
  rw [cartSave_eq_ok _ { user := ((findCart db.carts uid).getD { user := uid, items := [] }).user, items := cartItemsOf db uid } hvalid]
  exact ⟨{ user := ((findCart db.carts uid).getD { user := uid, items := [] }).user, items := cartItemsOf db uid }, rfl, rfl⟩

/-- Witness for C9 (amended): user 5 has no cart in `dbTwoProducts`; adding
product 1 (new key) and removing the fresh item restores the (empty) prior
item list. -/
theorem C9_roundtrip_amended_witness :
    respOk (addToCart dbTwoProducts 5 1 2 "L" "blue").2 = true ∧
    ∃ c2 : Cart,
      (removeFromCart (addToCart dbTwoProducts 5 1 2 "L" "blue").1 5 100).2 = .ok c2 ∧
      c2.items = cartItemsOf dbTwoProducts 5 := by
  obtain ⟨h1, h2⟩ := C9_roundtrip_amended dbTwoProducts 5 1 2 "L" "blue"
    { pid := 1, price := 10, stock := 5 }
    (by decide) (by decide) (by decide) (by decide) (by decide) (by decide)
  exact ⟨h1, h2⟩

end ECommerce
